import Mathlib

/-!
# Grace — verification of the conversational-commerce assistant

Shallow embedding of the Grace repository's chat client
(`grace_web_ui/src/pages/ChatPage.jsx`) and of the dialogue-orchestrator
subsystem described in the system specification (funnel state machine,
session store, catalog/tool gateway, response composer).  The web-client
functions are translated directly from the JavaScript source; the
orchestrator components are modelled from the specification because the
backend service code is not part of the checked-in sources.
-/

namespace Grace

/-! ## Chat client: reply splitting (ChatPage.jsx, sendMessage)

`sendMessage` splits the webhook reply with
`reply.split(/\r?\n\r?\n/).flatMap((chunk) => chunk.split(/\r?\n/))`
and turns each resulting line, trimmed, into one outbound bubble.
We embed the two regex splits as leftmost-scan splitters over the
character list. -/

/-- Embeds `chunk.split(/\r?\n/)`: leftmost scan, a separator is
`"\r\n"` (greedy) or `"\n"`; empty segments are kept, as JS `split` does. -/
def splitNlAux : List Char → List Char → List (List Char)
  | [], acc => [acc.reverse]
  | '\r' :: '\n' :: cs, acc => acc.reverse :: splitNlAux cs []
  | '\n' :: cs, acc => acc.reverse :: splitNlAux cs []
  | c :: cs, acc => splitNlAux cs (c :: acc)

/-- Embeds `reply.split(/\r?\n\r?\n/)`: a separator is `\r?\n\r?\n`
with both optional `\r` greedy, exactly as the JS regex engine matches. -/
def splitBlankAux : List Char → List Char → List (List Char)
  | [], acc => [acc.reverse]
  | '\r' :: '\n' :: '\r' :: '\n' :: cs, acc => acc.reverse :: splitBlankAux cs []
  | '\r' :: '\n' :: '\n' :: cs, acc => acc.reverse :: splitBlankAux cs []
  | '\n' :: '\r' :: '\n' :: cs, acc => acc.reverse :: splitBlankAux cs []
  | '\n' :: '\n' :: cs, acc => acc.reverse :: splitBlankAux cs []
  | c :: cs, acc => splitBlankAux cs (c :: acc)

/-- Embeds JS `String.prototype.trim` (restricted to ASCII whitespace)
at the character-list level. -/
def trimChars (cs : List Char) : List Char :=
  ((cs.dropWhile Char.isWhitespace).reverse.dropWhile Char.isWhitespace).reverse

/-- The bubble texts `sendMessage` produces from one webhook reply:
`reply.split(/\r?\n\r?\n/).flatMap(chunk => chunk.split(/\r?\n/))`,
each line trimmed (ChatPage.jsx lines 76–81). -/
def graceBubbles (reply : String) : List String :=
  (((splitBlankAux reply.toList []).flatMap (fun chunk => splitNlAux chunk [])).map
    (fun line => String.mk (trimChars line)))

/-- Embeds JS `String.prototype.trim` on whole strings. -/
def trimString (s : String) : String :=
  String.mk (trimChars s.toList)

/-- One displayed chat bubble (the `\x7b sender, text \x7d` objects of
`ChatPage.jsx`). -/
structure Bubble where
  sender : String
  text : String
deriving DecidableEq, Repr

/-- Embeds `sendMessage` (ChatPage.jsx lines 63–91), success path:
given the current message list, the raw input and the reply text the
webhook would return, it yields the new message list together with a
flag recording whether a webhook request was issued.  An input that is
empty after trimming returns immediately (`if (!trimmed) return;`). -/
def sendMessage (messages : List Bubble) (input : String) (reply : String) :
    List Bubble × Bool :=
  let trimmed := trimString input
  if trimmed = "" then (messages, false)
  else
    (messages ++ [⟨"user", trimmed⟩] ++
      (graceBubbles reply).map (fun line => ⟨"grace", line⟩), true)

/-! ## Chat client: webhook response handling (ChatPage.jsx, callWebhook)

`callWebhook` posts the form data and then selects the reply text:
if the `content-type` header contains `application/json` it returns
`json.reply ?? JSON.stringify(json)`; otherwise it extracts the first
`<Message ...>...</Message>` element with the regex
`/<Message[^>]*>([\s\S]*?)<\/Message>/i` and returns the trimmed inner
text, falling back to the whole body. -/

/-- A JavaScript JSON value, as produced by `res.json()`. -/
inductive Json where
  | bool (b : Bool)
  | num (n : Int)
  | str (s : String)
  | arr (xs : List Json)
  | obj (fields : List (String × Json))

mutual

/-- Embeds `JSON.stringify` on the JSON values of the model (string
escaping is not modelled; the replies at issue contain none). -/
def stringify : Json → String
  | .bool b => if b then "true" else "false"
  | .num n => toString n
  | .str s => "\x22" ++ s ++ "\x22"
  | .arr xs => "[" ++ stringifyList xs ++ "]"
  | .obj fs => "\x7b" ++ stringifyFields fs ++ "\x7d"

/-- Comma-separated serialization of an array's elements. -/
def stringifyList : List Json → String
  | [] => ""
  | [x] => stringify x
  | x :: xs => stringify x ++ "," ++ stringifyList xs

/-- Comma-separated serialization of an object's fields. -/
def stringifyFields : List (String × Json) → String
  | [] => ""
  | [(k, v)] => "\x22" ++ k ++ "\x22:" ++ stringify v
  | (k, v) :: fs => "\x22" ++ k ++ "\x22:" ++ stringify v ++ "," ++ stringifyFields fs

end

/-- Field access `json.k` on a JSON value: `some` when `json` is an
object carrying the field, `none` otherwise (JS `undefined`). -/
def jsGet : Json → String → Option Json
  | .obj fs, k => lookupField fs k
  | _, _ => none
where
  /-- First binding of the key in the field list. -/
  lookupField : List (String × Json) → String → Option Json
    | [], _ => none
    | (k, v) :: fs, key => if k = key then some v else lookupField fs key

/-- Whether `pre` is a prefix of `cs` (exact character equality). -/
def listStarts : List Char → List Char → Bool
  | [], _ => true
  | _ :: _, [] => false
  | p :: ps, c :: cs => p = c && listStarts ps cs

/-- Whether `needle` occurs as a substring of `hay`
(embeds JS `String.prototype.includes`). -/
def containsSub (needle hay : String) : Bool :=
  go needle.toList hay.toList
where
  /-- Scan every start position. -/
  go (n : List Char) : List Char → Bool
    | [] => listStarts n []
    | c :: cs => listStarts n (c :: cs) || go n cs

/-- Case-insensitive prefix test, for the regex `i` flag. -/
def listStartsCI : List Char → List Char → Bool
  | [], _ => true
  | _ :: _, [] => false
  | p :: ps, c :: cs => p.toLower = c.toLower && listStartsCI ps cs

/-- Regex `[^>]*>`: consume characters other than `>` and then a `>`,
returning the remainder; `none` when no `>` follows. -/
def consumeToGt : List Char → Option (List Char)
  | [] => none
  | '>' :: cs => some cs
  | _ :: cs => consumeToGt cs

/-- Lazy capture `([\s\S]*?)` up to the nearest case-insensitive
`</Message>`: the captured characters, or `none` when no close tag
exists in the remainder. -/
def captureToClose : List Char → Option (List Char)
  | [] => none
  | c :: cs =>
    if listStartsCI "</message>".toList (c :: cs) then some []
    else (captureToClose cs).map (fun inner => c :: inner)

/-- One match attempt of `<Message[^>]*>([\s\S]*?)<\/Message>` at the
head of the list: the capture group's characters on success. -/
def matchMessageAt (cs : List Char) : Option (List Char) :=
  if listStartsCI "<message".toList cs then
    match consumeToGt (cs.drop 8) with
    | some afterTag => captureToClose afterTag
    | none => none
  else none

/-- Leftmost match of the `<Message>` element regex: the engine tries
each start position in order (embeds `text.match(...)`, capture 1). -/
def firstMessageMatch (cs : List Char) : Option (List Char) :=
  match cs with
  | [] => matchMessageAt []
  | _ :: rest =>
    match matchMessageAt cs with
    | some inner => some inner
    | none => firstMessageMatch rest

/-- A webhook HTTP response as `callWebhook` observes it: the
`content-type` header, the body text, and the JSON value `res.json()`
yields when the body is JSON. -/
structure HttpResponse where
  mime : String
  json : Json
  text : String

/-- Embeds `callWebhook` (ChatPage.jsx lines 47–60): the reply value
handed back to `sendMessage`.  JSON branch: `json.reply ??
JSON.stringify(json)`; text branch: trimmed capture of the first
`<Message>` element, else the whole body. -/
def callWebhook (res : HttpResponse) : Json :=
  if containsSub "application/json" res.mime then
    (jsGet res.json "reply").getD (Json.str (stringify res.json))
  else
    match firstMessageMatch res.text.toList with
    | some inner => Json.str (String.mk (trimChars inner))
    | none => Json.str res.text

/-- The reply-selection rule as the claim states it: the `reply` field
of the parsed body when the content type is JSON (the serialized JSON
when that field is absent); otherwise the trimmed inner text of the
first `<Message>...</Message>` element when one exists, and the full
response body otherwise. -/
def displayedReplySpec (res : HttpResponse) : Json :=
  if containsSub "application/json" res.mime then
    match jsGet res.json "reply" with
    | some v => v
    | none => Json.str (stringify res.json)
  else
    match firstMessageMatch res.text.toList with
    | some inner => Json.str (String.mk (trimChars inner))
    | none => Json.str res.text

/-! ## Dialogue orchestrator

The backend service (Tenant Resolver, Session Store, Intent Classifier,
Catalog/Tool Gateway, Funnel State Machine, Response Composer, Dialogue
Orchestrator) is not among the checked-in sources — only its web client,
prompt documents and policy texts are.  The definitions below are
therefore modelled from the specification (§3–§5). -/

/-- Modelled from the spec: the FunnelStage enum (§3), with the
side-state `ESCALATED` reachable from any stage.  The backend funnel
implementation is missing from the sources. -/
inductive FunnelStage where
  | GREETING | DISCOVERY | SELECTION | ORDER_SUMMARY
  | PAYMENT_PENDING | PAYMENT_CONFIRMED | FULFILLMENT | CLOSED
  | ESCALATED
deriving DecidableEq, Repr

/-- Modelled from the spec: the payment_status enum (§3).  The backend
payment tracking code is missing from the sources. -/
inductive PaymentStatus where
  | none | proof_submitted | confirmed
deriving DecidableEq, Repr

/-- Modelled from the spec: the position of a payment status in the
forward order none → proof_submitted → confirmed (§3 invariants). -/
def PaymentStatus.rank : PaymentStatus → Nat
  | .none => 0
  | .proof_submitted => 1
  | .confirmed => 2

/-- Modelled from the spec: intent labels (§3).  The Intent Classifier
implementation is missing from the sources. -/
inductive IntentLabel where
  | greeting | product_inquiry | fabric_selection | payment_proof
  | off_topic | escalation | image_submission | unknown
deriving DecidableEq, Repr

/-- Modelled from the spec: a classification result — label, confidence
score, and the extracted SKU slot (§3). -/
structure Intent where
  label : IntentLabel
  confidence : Nat
  slotSku : Option String
deriving DecidableEq, Repr

/-- Modelled from the spec: a catalog product — id, name, price, image
URL (§6); the image URL is optional so that the Response Composer's
image-reference enforcement is observable. -/
structure Product where
  id : String
  name : String
  price : Nat
  imageUrl : Option String
deriving DecidableEq, Repr

/-- Modelled from the spec: the kinds of Catalog/Tool Gateway calls
(§3, §4.5).  The gateway implementation is missing from the sources. -/
inductive ToolKind where
  | catalog_match | payment_status | image_match
deriving DecidableEq, Repr

/-- Modelled from the spec: the payment-status lookup outcome —
confirmed, not found, or pending (§4.5). -/
inductive PaymentLookup where
  | confirmed | not_found | pending
deriving DecidableEq, Repr

/-- Modelled from the spec: a normalized tool payload — product list,
payment lookup, or matched SKU (§3). -/
inductive ToolPayload where
  | catalog (found : Bool) (products : List Product)
  | payment (status : PaymentLookup)
  | image (sku : Option String)
deriving DecidableEq, Repr

/-- Modelled from the spec: the reason codes a failed gateway call
reports (§4.5, §7). -/
inductive ToolFailure where
  | timeout | transport_error
deriving DecidableEq, Repr

/-- Modelled from the spec: what the external collaborator behind one
gateway call does — answer, time out, or fail in transport (§4.5). -/
inductive ToolOutcome where
  | ok (payload : ToolPayload)
  | timeout
  | transport_error
deriving DecidableEq, Repr

/-- Modelled from the spec: the normalized outcome of a gateway call —
kind, payload, success flag and failure reason (§3, §4.5). -/
structure ToolResult where
  kind : ToolKind
  payload : Option ToolPayload
  success : Bool
  reason : Option ToolFailure
deriving DecidableEq, Repr

/-- Modelled from the spec: `invoke(kind, params) -> ToolResult` of the
Catalog/Tool Gateway (§4.5).  The gateway is missing from the sources.
It is a total function: on timeout or transport error it returns a
failed ToolResult with a reason code instead of raising. -/
def invoke (kind : ToolKind) (outcome : ToolOutcome) : ToolResult :=
  match outcome with
  | .ok payload => { kind := kind, payload := some payload, success := true, reason := Option.none }
  | .timeout =>
    { kind := kind, payload := Option.none, success := false, reason := some .timeout }
  | .transport_error =>
    { kind := kind, payload := Option.none, success := false, reason := some .transport_error }

/-- Modelled from the spec: per-conversation session state — funnel
stage, short-term message window, candidate SKUs recorded during
discovery, pending selections, payment status, escalation flag (§3).
The Session Store implementation is missing from the sources. -/
structure Session where
  stage : FunnelStage
  window : List String
  candidates : List String
  pending : List String
  payment : PaymentStatus
  escalated : Bool
deriving DecidableEq, Repr

/-- Modelled from the spec: configured limits — intent-confidence
threshold (§4.4), window bound N with default 10 (§4.2), word budget
for listing replies and catalog top-K (§4.5, §4.6). -/
structure Config where
  threshold : Nat
  windowBound : Nat
  wordBudget : Nat
  topK : Nat
deriving DecidableEq, Repr

/-- Modelled from the spec: `append_message(session, message)` of the
Session Store — appends to the short-term window, evicting oldest
entries beyond the bound N (§4.2).  The store is missing from the
sources. -/
def append_message (bound : Nat) (s : Session) (m : String) : Session :=
  let w := s.window ++ [m]
  { s with window := w.drop (w.length - bound) }

/-- Modelled from the spec: the tie-break policy of §4.4 — an intent
whose confidence is below the configured threshold is treated as
`unknown`. -/
def effLabel (cfg : Config) (i : Intent) : IntentLabel :=
  if i.confidence < cfg.threshold then .unknown else i.label

/-- Modelled from the spec: which gateway calls one turn makes (§2,
§4.4, §4.5): the catalog on a product inquiry during discovery, the
payment lookup on payment proof while payment is pending, the image
matcher on an image submission; a low-confidence turn makes none
(§8 Scenario 4).  The orchestrator is missing from the sources. -/
def turnToolCalls (cfg : Config) (s : Session) (i : Intent) : List ToolKind :=
  let lbl := effLabel cfg i
  (if s.stage = .DISCOVERY ∧ lbl = .product_inquiry then [ToolKind.catalog_match] else [])
    ++ (if s.stage = .PAYMENT_PENDING ∧ lbl = .payment_proof then [ToolKind.payment_status] else [])
    ++ (if lbl = .image_submission then [ToolKind.image_match] else [])

/-- Modelled from the spec: payment-proof submission moves
payment_status forward from `none` to `proof_submitted` and never
backward (§3 invariants, §4.4). -/
def afterProof : PaymentStatus → PaymentStatus
  | .none => .proof_submitted
  | p => p

/-- Modelled from the spec: the Funnel State Machine transition table
of §4.4, applied to a session given the effective intent label, the
extracted SKU slot and the turn's tool results.  The state machine is
missing from the sources.  Off-topic and unknown (low-confidence)
intents leave the stage unchanged; an escalation intent moves any
stage to ESCALATED and sets the escalation flag. -/
def fsmStep (s : Session) (lbl : IntentLabel) (slot : Option String)
    (res : ToolKind → Option ToolResult) : Session :=
  match lbl with
  | .escalation => { s with stage := .ESCALATED, escalated := true }
  | .off_topic => s
  | .unknown => s
  | _ =>
    match s.stage with
    | .GREETING => { s with stage := .DISCOVERY }
    | .DISCOVERY =>
      if lbl = .product_inquiry then
        match res .catalog_match with
        | some r =>
          if r.success then
            match r.payload with
            | some (.catalog true products) =>
              { s with stage := .SELECTION, candidates := products.map Product.id }
            | _ => s
          else s
        | Option.none => s
      else s
    | .SELECTION =>
      if lbl = .fabric_selection then
        match slot with
        | some sku =>
          if sku ∈ s.candidates then
            { s with stage := .ORDER_SUMMARY, pending := [sku] }
          else s
        | Option.none => s
      else s
    | .ORDER_SUMMARY => { s with stage := .PAYMENT_PENDING }
    | .PAYMENT_PENDING =>
      if lbl = .payment_proof then
        let s1 := { s with payment := afterProof s.payment }
        match res .payment_status with
        | some r =>
          match r.payload with
          | some (.payment .confirmed) =>
            { s1 with stage := .PAYMENT_CONFIRMED, payment := .confirmed }
          | _ => s1
        | Option.none => s1
      else s
    | .PAYMENT_CONFIRMED => { s with stage := .FULFILLMENT }
    | .FULFILLMENT => s
    | .CLOSED => s
    | .ESCALATED => s

/-- Modelled from the spec: the Funnel State Machine's content
obligations for the reply (§4.4, §4.6) — here, whether the decision
explicitly calls for a product listing. -/
structure FunnelDecision where
  wantsListing : Bool
deriving DecidableEq, Repr

/-- Modelled from the spec: an outbound reply — its words and the
product items it lists (§4.6). -/
structure OutboundMessage where
  words : List String
  items : List Product
deriving DecidableEq, Repr

/-- Modelled from the spec: `compose(session, funnel_decision,
tool_result) -> OutboundMessage` of the Response Composer (§4.6),
missing from the sources.  It enforces the formatting invariants:
a listing appears only when the decision calls for one, every listed
item carries an image reference, and a listing-type reply is truncated
to the configured word budget. -/
def compose (cfg : Config) (decision : FunnelDecision)
    (products : List Product) (draft : List String) : OutboundMessage :=
  if decision.wantsListing then
    { words := draft.take cfg.wordBudget,
      items := (products.filter (fun p => p.imageUrl.isSome)).take cfg.topK }
  else
    { words := draft, items := [] }

/-- Modelled from the spec: everything one inbound message brings to a
turn — the classifier's intent, the behavior of each external
collaborator were it called, and the LLM's draft wording (§2, §9). -/
structure TurnInput where
  intent : Intent
  outcomes : ToolKind → ToolOutcome
  draft : List String

/-- Modelled from the spec: the Dialogue Orchestrator's processing of
one turn (§2 data flow, §4.4, §5), missing from the sources: an
escalated session produces no automated reply; otherwise the intent is
classified with the tie-break policy, at most the arbitrated tool calls
are made through the gateway, the funnel state machine computes the
next session state, and the Response Composer builds the reply. -/
def runTurn (cfg : Config) (s : Session) (inp : TurnInput) :
    Session × Option OutboundMessage :=
  if s.escalated then (s, Option.none)
  else
    let lbl := effLabel cfg inp.intent
    let calls := turnToolCalls cfg s inp.intent
    let res : ToolKind → Option ToolResult := fun k =>
      if k ∈ calls then some (invoke k (inp.outcomes k)) else Option.none
    let s' := fsmStep s lbl inp.intent.slotSku res
    let catalogProducts : List Product :=
      match res .catalog_match with
      | some r =>
        match r.payload with
        | some (.catalog _ ps) => ps
        | _ => []
      | Option.none => []
    let found : Bool :=
      match res .catalog_match with
      | some r =>
        r.success && (match r.payload with
          | some (.catalog f _) => f
          | _ => false)
      | Option.none => false
    (s', some (compose cfg ⟨found⟩ catalogProducts inp.draft))

/-- Modelled from the spec: the session state after a sequence of
turns, each persisted before the next (§5 ordering guarantees). -/
def runTurns (cfg : Config) (s : Session) : List TurnInput → Session
  | [] => s
  | inp :: rest => runTurns cfg (runTurn cfg s inp).1 rest

/-- Modelled from the spec: the stream of automated replies a sequence
of turns produces (§5). -/
def turnReplies (cfg : Config) (s : Session) :
    List TurnInput → List (Option OutboundMessage)
  | [] => []
  | inp :: rest => (runTurn cfg s inp).2 :: turnReplies cfg (runTurn cfg s inp).1 rest

/-- Modelled from the spec: the operations that mutate a session — a
full turn of the orchestrator, or a Session Store window append
(§4.2, §2). -/
inductive SessionOp where
  | turn (inp : TurnInput)
  | append (m : String)

/-- Modelled from the spec: applying one session operation. -/
def applyOp (cfg : Config) (bound : Nat) (s : Session) : SessionOp → Session
  | .turn inp => (runTurn cfg s inp).1
  | .append m => append_message bound s m

/-- Modelled from the spec: applying a sequence of session operations
in arrival order (§5 ordering guarantees). -/
def applyOps (cfg : Config) (bound : Nat) (s : Session) : List SessionOp → Session
  | [] => s
  | op :: rest => applyOps cfg bound (applyOp cfg bound s op) rest

/-! ## Sample data, used by the concrete witness instances -/

/-- A sample configuration: confidence threshold 50, window bound 10
(the spec's default N), word budget 40 (the prompt's listing budget),
catalog top-K 5. -/
def cfgSample : Config := ⟨50, 10, 40, 5⟩

/-- A sample catalog product carrying an image reference. -/
def productSample : Product := ⟨"SKU1", "Ankara Dress", 100, some "http://img/1.jpg"⟩

/-- A session sitting in the DISCOVERY stage. -/
def discoverySession : Session := ⟨.DISCOVERY, ["hi"], [], [], .none, false⟩

/-- A confident product-inquiry turn whose catalog lookup finds the
sample product. -/
def inquiryTurn : TurnInput :=
  ⟨⟨.product_inquiry, 90, Option.none⟩,
   fun _ => .ok (.catalog true [productSample]),
   ["Here", "are", "our", "prints"]⟩

/-- A confident escalation-request turn. -/
def escalateTurn : TurnInput :=
  ⟨⟨.escalation, 90, Option.none⟩, fun _ => .ok (.catalog false []), ["ok"]⟩

/-- A plain greeting turn. -/
def helloTurn : TurnInput :=
  ⟨⟨.greeting, 90, Option.none⟩, fun _ => .timeout, ["hello"]⟩

/-! ## Helper lemmas -/

/-- No segment produced by the single-newline splitter contains a
newline, provided the accumulator holds none. -/
theorem splitNlAux_no_nl : ∀ (cs acc : List Char), '\n' ∉ acc →
    ∀ l ∈ splitNlAux cs acc, '\n' ∉ l := by
  intro cs acc hacc l hl
  induction cs, acc using splitNlAux.induct generalizing l with
  | case1 acc =>
    simp [splitNlAux] at hl
    subst hl
    simp [hacc]
  | case2 cs acc ih =>
    simp [splitNlAux] at hl
    rcases hl with h | h
    · subst h; simp [hacc]
    · exact ih (by simp) l h
  | case3 cs acc ih =>
    simp [splitNlAux] at hl
    rcases hl with h | h
    · subst h; simp [hacc]
    · exact ih (by simp) l h
  | case4 c cs acc h1 h2 ih =>
    rw [splitNlAux.eq_4 _ _ _ (fun cs1 a b => h1 cs1 a b) h2] at hl
    exact ih (by simp [hacc]; exact fun h => h2 h.symm) l hl

/-- Trimming never introduces characters. -/
theorem mem_trimChars {a : Char} {cs : List Char} (h : a ∈ trimChars cs) : a ∈ cs := by
  unfold trimChars at h
  rw [List.mem_reverse] at h
  have h2 := (List.dropWhile_sublist _).mem h
  rw [List.mem_reverse] at h2
  exact (List.dropWhile_sublist _).mem h2

/-- Submitting payment proof never lowers the payment rank. -/
theorem afterProof_rank (p : PaymentStatus) : p.rank ≤ (afterProof p).rank := by
  cases p <;> simp [afterProof, PaymentStatus.rank]

/-- A funnel transition never lowers the payment rank. -/
theorem fsmStep_payment_mono (s : Session) (lbl : IntentLabel) (slot : Option String)
    (res : ToolKind → Option ToolResult) :
    s.payment.rank ≤ (fsmStep s lbl slot res).payment.rank := by
  unfold fsmStep
  cases lbl <;> dsimp only <;>
    (try rfl) <;>
    cases s.stage <;> dsimp only <;>
    (repeat' split) <;>
    cases s.payment <;>
    simp [afterProof, PaymentStatus.rank]

/-- A full turn never lowers the payment rank. -/
theorem runTurn_payment_mono (cfg : Config) (s : Session) (inp : TurnInput) :
    s.payment.rank ≤ (runTurn cfg s inp).1.payment.rank := by
  unfold runTurn
  split
  · rfl
  · exact fsmStep_payment_mono _ _ _ _

/-- An escalated session passes through a turn untouched, with no
automated reply. -/
theorem runTurn_escalated (cfg : Config) (s : Session) (inp : TurnInput)
    (h : s.escalated = true) : runTurn cfg s inp = (s, Option.none) := by
  unfold runTurn
  rw [if_pos h]

/-- Every reply in a turn sequence starting from an escalated session
is suppressed. -/
theorem turnReplies_escalated (cfg : Config) (s : Session) (h : s.escalated = true) :
    ∀ (rest : List TurnInput) (r : Option OutboundMessage),
      r ∈ turnReplies cfg s rest → r = Option.none := by
  intro rest
  induction rest generalizing s with
  | nil => intro r hr; simp [turnReplies] at hr
  | cons i is ih =>
    intro r hr
    unfold turnReplies at hr
    rw [runTurn_escalated cfg s i h] at hr
    rcases List.mem_cons.mp hr with h' | h'
    · exact h'
    · exact ih s h r h'

/-! ## Claims -/

/-- C1 (counterexample): the claim says text separated only by a single
newline stays in the same bubble, but `sendMessage` splits the reply
`"a\nb"` into the two bubbles `"a"` and `"b"`, not the single bubble
`"a\nb"`. -/
theorem graceBubbles_single_newline_counterexample :
    graceBubbles "a\nb" = ["a", "b"] ∧ graceBubbles "a\nb" ≠ ["a\nb"] := by
  decide

/-- C1 (amended): every outbound reply is split into bubbles at
blank-line boundaries and additionally at every single newline — each
newline-separated line becomes its own trimmed bubble, so no emitted
bubble text contains a newline character. -/
theorem graceBubbles_no_newline_in_bubble :
    ∀ (reply b : String), b ∈ graceBubbles reply → '\n' ∉ b.toList := by
  intro reply b hb
  unfold graceBubbles at hb
  rw [List.mem_map] at hb
  obtain ⟨line, hline, rfl⟩ := hb
  rw [List.mem_flatMap] at hline
  obtain ⟨chunk, _, hmem⟩ := hline
  intro hn
  have hmem2 : ('\n' : Char) ∈ trimChars line := hn
  exact splitNlAux_no_nl chunk [] (by simp) line hmem (mem_trimChars hmem2)

/-- C1 (witness): the bubble `"a"` emitted for the reply `"a\nb"`
contains no newline. -/
theorem graceBubbles_no_newline_in_bubble_witness :
    ("a" ∈ graceBubbles "a\nb") ∧ '\n' ∉ "a".toList :=
  ⟨by decide, graceBubbles_no_newline_in_bubble "a\nb" "a" (by decide)⟩

/-- C2: in the DISCOVERY stage, a confident product-inquiry intent
whose catalog call returns a found catalog_match always moves the
session to SELECTION and records the matched SKUs as candidates. -/
theorem discovery_product_inquiry_to_selection
    (cfg : Config) (s : Session) (inp : TurnInput) (products : List Product)
    (hesc : s.escalated = false)
    (hstage : s.stage = .DISCOVERY)
    (hlbl : inp.intent.label = .product_inquiry)
    (hconf : cfg.threshold ≤ inp.intent.confidence)
    (hout : inp.outcomes .catalog_match = .ok (.catalog true products)) :
    (runTurn cfg s inp).1.stage = .SELECTION ∧
    (runTurn cfg s inp).1.candidates = products.map Product.id := by
  have hl : effLabel cfg inp.intent = .product_inquiry := by
    unfold effLabel
    rw [if_neg (by omega), hlbl]
  have hcalls : turnToolCalls cfg s inp.intent = [.catalog_match] := by
    unfold turnToolCalls
    rw [hl]
    simp [hstage]
  unfold runTurn
  rw [hcalls, hl]
  simp only [hesc, Bool.false_eq_true, if_false]
  unfold fsmStep
  simp only [hstage, hout]
  simp [invoke]

/-- C2 (witness): a concrete discovery session with a found catalog
match lands in SELECTION with the sample SKU as candidate. -/
theorem discovery_product_inquiry_to_selection_witness :
    discoverySession.escalated = false ∧
    discoverySession.stage = .DISCOVERY ∧
    inquiryTurn.intent.label = .product_inquiry ∧
    cfgSample.threshold ≤ inquiryTurn.intent.confidence ∧
    inquiryTurn.outcomes .catalog_match = .ok (.catalog true [productSample]) ∧
    ((runTurn cfgSample discoverySession inquiryTurn).1.stage = .SELECTION ∧
      (runTurn cfgSample discoverySession inquiryTurn).1.candidates =
        [productSample].map Product.id) :=
  ⟨rfl, rfl, rfl, by decide, rfl,
    discovery_product_inquiry_to_selection cfgSample discoverySession inquiryTurn
      [productSample] rfl rfl rfl (by decide) rfl⟩

/-- C3: payment_status only moves forward along
none → proof_submitted → confirmed over any sequence of session
operations (turns and window appends); it never regresses. -/
theorem payment_status_monotone
    (cfg : Config) (bound : Nat) (ops : List SessionOp) (s : Session) :
    s.payment.rank ≤ (applyOps cfg bound s ops).payment.rank := by
  induction ops generalizing s with
  | nil => rfl
  | cons op rest ih =>
    refine le_trans ?_ (ih (applyOp cfg bound s op))
    cases op with
    | turn inp => exact runTurn_payment_mono cfg s inp
    | append m => rfl

/-- C4: a confident escalation intent moves any non-escalated session
to ESCALATED and sets the escalation flag, and from then on every
automated reply of every later turn is suppressed (the model never
clears the flag; only a human takeover would). -/
theorem escalation_sets_flag_and_suppresses
    (cfg : Config) (s : Session) (inp : TurnInput)
    (hesc : s.escalated = false)
    (hlbl : inp.intent.label = .escalation)
    (hconf : cfg.threshold ≤ inp.intent.confidence) :
    (runTurn cfg s inp).1.stage = .ESCALATED ∧
    (runTurn cfg s inp).1.escalated = true ∧
    ∀ (rest : List TurnInput) (r : Option OutboundMessage),
      r ∈ turnReplies cfg (runTurn cfg s inp).1 rest → r = Option.none := by
  have hl : effLabel cfg inp.intent = .escalation := by
    unfold effLabel
    rw [if_neg (by omega), hlbl]
  have hstep : (runTurn cfg s inp).1 =
      { s with stage := .ESCALATED, escalated := true } := by
    unfold runTurn
    simp only [hesc, Bool.false_eq_true, if_false]
    unfold fsmStep
    rw [hl]
  refine ⟨by rw [hstep], by rw [hstep], ?_⟩
  rw [hstep]
  exact turnReplies_escalated cfg _ rfl

/-- C4 (witness): a concrete escalation request in DISCOVERY yields an
escalated session and a fully suppressed reply stream for the next
turn. -/
theorem escalation_sets_flag_and_suppresses_witness :
    (runTurn cfgSample discoverySession escalateTurn).1.stage = .ESCALATED ∧
    (runTurn cfgSample discoverySession escalateTurn).1.escalated = true ∧
    turnReplies cfgSample (runTurn cfgSample discoverySession escalateTurn).1
      [helloTurn] = [Option.none] := by
  obtain ⟨h1, h2, h3⟩ := escalation_sets_flag_and_suppresses cfgSample
    discoverySession escalateTurn rfl rfl (by decide)
  refine ⟨h1, h2, ?_⟩
  have h4 := h3 [helloTurn]
    (runTurn cfgSample (runTurn cfgSample discoverySession escalateTurn).1 helloTurn).2
    (by unfold turnReplies; exact List.mem_cons_self _ _)
  simp [turnReplies, h4]

/-- C5: within one turn, at most one gateway call is made per tool
kind — the call list the orchestrator arbitrates never holds the same
kind twice. -/
theorem at_most_one_tool_call_per_kind
    (cfg : Config) (s : Session) (i : Intent) (k : ToolKind) :
    (turnToolCalls cfg s i).count k ≤ 1 := by
  unfold turnToolCalls
  dsimp only
  split <;> split <;> split <;> cases k <;> simp [List.count_cons, List.count_nil]

/-- C6: the Response Composer emits a product listing only when the
funnel decision calls for one, every listed item carries an image
reference, and a listing-type reply stays within the configured word
budget. -/
theorem compose_formatting_invariants
    (cfg : Config) (d : FunnelDecision) (products : List Product)
    (draft : List String) :
    ((compose cfg d products draft).items ≠ [] → d.wantsListing = true) ∧
    (∀ p ∈ (compose cfg d products draft).items, p.imageUrl.isSome = true) ∧
    (d.wantsListing = true →
      (compose cfg d products draft).words.length ≤ cfg.wordBudget) := by
  unfold compose
  rcases d with ⟨b⟩
  cases b <;> simp
  intro p hp
  have hp2 := List.mem_of_mem_take hp
  exact (List.mem_filter.mp hp2).2

/-- C6 (witness): composing a listing reply from the sample product
emits a non-empty listing, the item carries an image, and the reply
fits the word budget. -/
theorem compose_formatting_invariants_witness :
    ((compose cfgSample ⟨true⟩ [productSample] ["Lovely", "prints"]).items ≠ []) ∧
    (FunnelDecision.mk true).wantsListing = true ∧
    productSample.imageUrl.isSome = true ∧
    (compose cfgSample ⟨true⟩ [productSample] ["Lovely", "prints"]).words.length ≤
      cfgSample.wordBudget :=
  ⟨by decide,
    (compose_formatting_invariants cfgSample ⟨true⟩ [productSample]
      ["Lovely", "prints"]).1 (by decide),
    (compose_formatting_invariants cfgSample ⟨true⟩ [productSample]
      ["Lovely", "prints"]).2.1 productSample (by decide),
    (compose_formatting_invariants cfgSample ⟨true⟩ [productSample]
      ["Lovely", "prints"]).2.2 rfl⟩

/-- C7: a gateway call that times out or hits a transport error yields
a ToolResult with success = false and a reason code; `invoke` is a
total function into ToolResult, so no exception crosses the gateway
boundary. -/
theorem invoke_failure_returns_reason (k : ToolKind) (o : ToolOutcome)
    (h : o = .timeout ∨ o = .transport_error) :
    (invoke k o).success = false ∧ (invoke k o).reason.isSome = true := by
  rcases h with h | h <;> subst h <;> simp [invoke]

/-- C7 (witness): a timed-out catalog call reports failure with a
reason code. -/
theorem invoke_failure_returns_reason_witness :
    (invoke .catalog_match .timeout).success = false ∧
    (invoke .catalog_match .timeout).reason.isSome = true :=
  invoke_failure_returns_reason .catalog_match .timeout (Or.inl rfl)

/-- C8: after any `append_message` the short-term window holds at most
the configured bound N entries, and what remains is a suffix of the
old window plus the new message — the oldest entries are the ones
evicted. -/
theorem append_message_window_bounded (bound : Nat) (s : Session) (m : String) :
    (append_message bound s m).window.length ≤ bound ∧
    (append_message bound s m).window.IsSuffix (s.window ++ [m]) := by
  unfold append_message
  refine ⟨?_, List.drop_suffix _ _⟩
  simp only [List.length_drop, List.length_append, List.length_cons, List.length_nil]
  omega

/-- C9: the reply text the chat client displays is the `reply` field of
the parsed body when the content type is JSON (the serialized JSON when
that field is absent); otherwise the trimmed inner text of the first
`<Message>...</Message>` element when one exists, and the full response
body otherwise. -/
theorem callWebhook_reply_selection (res : HttpResponse) :
    callWebhook res = displayedReplySpec res := by
  unfold callWebhook displayedReplySpec
  cases h : containsSub "application/json" res.mime <;> simp [h, Option.getD]
  cases jsGet res.json "reply" <;> simp

/-- C10: an input that is empty or only whitespace makes `sendMessage`
return without issuing a webhook request and leaves the displayed
message list unchanged. -/
theorem sendMessage_blank_input_noop :
    ∀ (messages : List Bubble) (input reply : String),
      trimString input = "" →
      sendMessage messages input reply = (messages, false) := by
  intro messages input reply h
  unfold sendMessage
  rw [h]
  simp

/-- C10 (witness): a whitespace-only input leaves an empty message
list unchanged and sends nothing. -/
theorem sendMessage_blank_input_noop_witness :
    trimString "  \t " = "" ∧
    sendMessage [] "  \t " "x" = ([], false) :=
  ⟨by decide, sendMessage_blank_input_noop [] "  \t " "x" (by decide)⟩

end Grace
